import Mathlib

/-!
Verification of the team-drive scanner crawl engine.

The definitions below are a shallow embedding of the Go sources:
* scanner package (service-account pool, ScanTeamDrive, Worker.start,
  Worker.listFolder, Worker.executeWithRetry, dbWriter);
* database package (FileRecord, Database.BatchInsert and the files table,
  whose primary key is the id column and whose insert statement is
  INSERT OR REPLACE).

Machine integers are modelled as Nat / Int with explicit wrapping where the
source can overflow (the int32 round-robin cursor).  Fallible operations
return Except.  Concurrency is modelled as an explicit step relation on a
synchronisation state for the termination claim, and as a sequential
depth-first processing of the job queue for the counting claims, which are
insensitive to interleaving order.
-/

/-! ## Retry executor: Worker.executeWithRetry -/

/-- Error of one upstream call: either a googleapi.Error carrying an HTTP
status code, or any other (generic) error value. -/
inductive ApiError where
  | gapi (code : Nat)
  | generic (msg : String)
deriving Repr, DecidableEq

/-- Rate-limit classification from executeWithRetry: a googleapi.Error with
code 403 or 429.  Every other error is not rate-limit-class. -/
def ApiError.isRateLimit : ApiError → Bool
  | ApiError.gapi code => code == 403 || code == 429
  | ApiError.generic _ => false

/-- Result of one call.Do() invocation. -/
inductive Outcome (α : Type) where
  | ok (a : α)
  | err (e : ApiError)

/-- Whether a call outcome is an error. -/
def Outcome.isErr {α : Type} : Outcome α → Bool
  | Outcome.ok _ => false
  | Outcome.err _ => true

/-- Value returned by executeWithRetry: the successful payload, the
underlying error returned directly, or the fmt.Errorf max-retries-exceeded
error produced after the loop exhausts. -/
inductive RetryResult (α : Type) where
  | ok (a : α)
  | err (e : ApiError)
  | maxRetriesExceeded
deriving DecidableEq

/-- Observable behaviour of one executeWithRetry run: its return value, how
many times call.Do() ran, and the sequence of time.Sleep delays, in
nanoseconds, in order. -/
structure RetryOut (α : Type) where
  result : RetryResult α
  calls : Nat
  sleeps : List Nat
deriving DecidableEq

/-- baseDelay = time.Second, in nanoseconds. -/
def baseDelayNs : Nat := 1000000000

/-- delay = baseDelay * (1 << attempt). -/
def backoffDelay (attempt : Nat) : Nat := baseDelayNs * 2 ^ attempt

/-- The retry loop of executeWithRetry.  The first argument gives the result
of call.Do() on each attempt (the environment).  The list holds the attempt
indices still to run, so the loop body for attempt a with remaining
attempts rest mirrors the source: on success return immediately; on a
rate-limit-class error sleep and continue; on any other error, if this is
not the last attempt (rest nonempty, i.e. attempt < maxRetries-1) sleep and
continue, otherwise return the underlying error.  An exhausted list is the
loop falling through to the max-retries-exceeded return. -/
def retryLoop {α : Type} (doCall : Nat → Outcome α) :
    List Nat → Nat → List Nat → RetryOut α
  | [], calls, sleeps => ⟨RetryResult.maxRetriesExceeded, calls, sleeps⟩
  | a :: rest, calls, sleeps =>
    match doCall a with
    | Outcome.ok v => ⟨RetryResult.ok v, calls + 1, sleeps⟩
    | Outcome.err e =>
      if e.isRateLimit then
        retryLoop doCall rest (calls + 1) (sleeps ++ [backoffDelay a])
      else if rest.isEmpty then ⟨RetryResult.err e, calls + 1, sleeps⟩
      else retryLoop doCall rest (calls + 1) (sleeps ++ [backoffDelay a])

/-- Worker.executeWithRetry: maxRetries = 5 attempts, numbered 0 to 4. -/
def executeWithRetry {α : Type} (doCall : Nat → Outcome α) : RetryOut α :=
  retryLoop doCall (List.range 5) 0 []

/-- Environment where every attempt fails with the same non-rate-limit
error. -/
def allGenericCalls : Nat → Outcome Unit :=
  fun _ => Outcome.err (ApiError.generic "network")

/-- Environment where every attempt fails with HTTP 429. -/
def allRateCalls : Nat → Outcome Unit :=
  fun _ => Outcome.err (ApiError.gapi 429)

/-- Environment of the spec scenario: a rate-limit-class error exactly twice,
then success. -/
def rateLimitTwiceCalls : Nat → Outcome Unit :=
  fun k => if k < 2 then Outcome.err (ApiError.gapi 429) else Outcome.ok ()

/-! ## Per-page counter updates: Worker.listFolder and Worker.start -/

/-- Counter deltas produced by one page of Worker.listFolder together with
its caller Worker.start: APICallsTotal is incremented once before the
executeWithRetry call; APICallsSuccess once after it succeeds;
APICallsFailed once, by Worker.start, when the listing returns an error. -/
structure PageStats where
  apiCallsTotal : Nat
  apiCallsSuccess : Nat
  apiCallsFailed : Nat
  sleeps : List Nat
deriving DecidableEq

/-- One iteration of the page loop of Worker.listFolder, restricted to its
effect on the Stats counters and backoff sleeps. -/
def listPageOnce {α : Type} (doCall : Nat → Outcome α) : PageStats :=
  let r := executeWithRetry doCall
  match r.result with
  | RetryResult.ok _ => ⟨1, 1, 0, r.sleeps⟩
  | RetryResult.err _ => ⟨1, 0, 1, r.sleeps⟩
  | RetryResult.maxRetriesExceeded => ⟨1, 0, 1, r.sleeps⟩

/-! ## The crawled tree and Worker.listFolder item handling -/

/-- Fields of one item of a listing page, as requested by the Fields
selector of the list call. -/
structure Item where
  id : String
  name : String
  size : Int
  modifiedTime : String
  mimeType : String
deriving Repr, DecidableEq

/-- The folder MIME type compared against in Worker.listFolder. -/
def folderMimeType : String := "application/vnd.google-apps.folder"

/-- isFolder := file.MimeType == "application/vnd.google-apps.folder". -/
def Item.isFolder (it : Item) : Bool := it.mimeType == folderMimeType

/-- database.FileRecord, restricted to the ten fields the crawler sets and
BatchInsert writes. -/
structure FileRecord where
  id : String
  name : String
  parentID : String
  teamDriveID : String
  teamDriveName : String
  size : Int
  modifiedTime : String
  mimeType : String
  isFolder : Bool
  path : String
deriving Repr, DecidableEq

/-- The record literal built in Worker.listFolder for one listed item:
ParentID is the folder being listed and Path is the item's own name. -/
def mkFileRecord (tdID tdName parentID : String) (it : Item) : FileRecord :=
  { id := it.id, name := it.name, parentID := parentID, teamDriveID := tdID,
    teamDriveName := tdName, size := it.size, modifiedTime := it.modifiedTime,
    mimeType := it.mimeType, isFolder := it.isFolder, path := it.name }

mutual
/-- A finite folder tree served by the upstream API: each node is an item
together with the forest of children its listing reports.  File nodes carry
an empty child forest (see wfNode). -/
inductive FsNode where
  | node (item : Item) (children : FsForest)
inductive FsForest where
  | nil
  | cons (head : FsNode) (tail : FsForest)
end

/-- Whether a forest is empty. -/
def FsForest.isNil : FsForest → Bool
  | FsForest.nil => true
  | FsForest.cons _ _ => false

/-- Accumulated observable output of processing jobs: emitted records (in
order pushed to the result channel), folder ids enqueued as new jobs (in
order of first observation), and the FilesProcessed and FoldersQueued
counter totals. -/
structure CrawlOut where
  records : List FileRecord
  enqueued : List String
  filesProcessed : Nat
  foldersQueued : Nat
deriving Repr, DecidableEq

/-- The empty output. -/
def CrawlOut.empty : CrawlOut := ⟨[], [], 0, 0⟩

/-- Concatenation of outputs of consecutive pieces of work. -/
def CrawlOut.append (a b : CrawlOut) : CrawlOut :=
  ⟨a.records ++ b.records, a.enqueued ++ b.enqueued,
   a.filesProcessed + b.filesProcessed, a.foldersQueued + b.foldersQueued⟩

mutual
/-- The per-item body of Worker.listFolder, applied to every job the crawl
ever processes, sequenced depth-first (the counting claims are insensitive
to the interleaving the worker pool actually produces).  For each listed
child of parentID the worker pushes a record and increments FilesProcessed
unconditionally; if the child is a folder it additionally increments
FoldersQueued and enqueues the child id, whose own listing as a later job
is the crawlForest call on its children. -/
def crawlNode (tdID tdName : String) : String → FsNode → CrawlOut
  | parentID, FsNode.node it cs =>
    CrawlOut.append ⟨[mkFileRecord tdID tdName parentID it], [], 1, 0⟩
      (if it.isFolder then
        CrawlOut.append ⟨[], [it.id], 0, 1⟩ (crawlForest tdID tdName it.id cs)
      else CrawlOut.empty)
def crawlForest (tdID tdName : String) : String → FsForest → CrawlOut
  | _, FsForest.nil => CrawlOut.empty
  | parentID, FsForest.cons n rest =>
    CrawlOut.append (crawlNode tdID tdName parentID n)
      (crawlForest tdID tdName parentID rest)
end

mutual
/-- All item ids at or below a node, the parent before its children. -/
def nodeIds : FsNode → List String
  | FsNode.node it cs => it.id :: forestIds cs
def forestIds : FsForest → List String
  | FsForest.nil => []
  | FsForest.cons n rest => nodeIds n ++ forestIds rest
end

mutual
/-- Ids of all folder items at or below a node. -/
def nodeFolderIds : FsNode → List String
  | FsNode.node it cs => (if it.isFolder then [it.id] else []) ++ forestFolderIds cs
def forestFolderIds : FsForest → List String
  | FsForest.nil => []
  | FsForest.cons n rest => nodeFolderIds n ++ forestFolderIds rest
end

mutual
/-- Well-formed trees: an item whose MIME type is not the folder type has no
children (the upstream API never reports children for a plain file). -/
def wfNode : FsNode → Bool
  | FsNode.node it cs => (it.isFolder || cs.isNil) && wfForest cs
def wfForest : FsForest → Bool
  | FsForest.nil => true
  | FsForest.cons n rest => wfNode n && wfForest rest
end

/-- A plain file item. -/
def fileItem (i n : String) : Item := ⟨i, n, 5, "2024-01-01T00:00:00Z", "text/plain"⟩

/-- A folder item. -/
def folderItem (i n : String) : Item := ⟨i, n, 0, "2024-01-01T00:00:00Z", folderMimeType⟩

/-- The spec scenario: root folder A contains files f1 and f2 and subfolder
B; B contains file f3. -/
def scenarioForest : FsForest :=
  FsForest.cons (FsNode.node (fileItem "f1" "one") FsForest.nil)
    (FsForest.cons (FsNode.node (fileItem "f2" "two") FsForest.nil)
      (FsForest.cons
        (FsNode.node (folderItem "B" "bee")
          (FsForest.cons (FsNode.node (fileItem "f3" "three") FsForest.nil) FsForest.nil))
        FsForest.nil))

/-! ## Synchronisation skeleton of ScanTeamDrive -/

/-- Synchronisation-relevant state of one ScanTeamDrive run: pending counts
folder ids sitting in jobQueue (or handed to a pending dispatch goroutine),
active counts jobs currently inside a Worker.listFolder call, wgCount is
the sync.WaitGroup counter, jobQueueClosed records whether close(jobQueue)
has run, and returned records whether ScanTeamDrive has passed wg.Wait()
and returned. -/
structure ScanState where
  pending : Nat
  active : Nat
  wgCount : Nat
  jobQueueClosed : Bool
  returned : Bool
deriving Repr, DecidableEq

/-- State after the setup code of ScanTeamDrive: wg.Add(1) was called once
per worker before spawning it, and the root TeamDriveID was pushed onto
jobQueue. -/
def initScan (totalWorkers : Nat) : ScanState :=
  ⟨1, 0, totalWorkers, false, false⟩

/-- The events the source can perform.  There is no transition that sets
jobQueueClosed: no statement in the scanner package closes jobQueue. -/
inductive ScanStep : ScanState → ScanState → Prop where
  /-- A worker receives a folder id from jobQueue and enters listFolder. -/
  | takeJob (s : ScanState) (h : 0 < s.pending) :
      ScanStep s ⟨s.pending - 1, s.active + 1, s.wgCount, s.jobQueueClosed, s.returned⟩
  /-- A listing observes a child folder: w.wg.Add(1) and the spawned
  goroutine pushes the id onto jobQueue. -/
  | discoverFolder (s : ScanState) (h : 0 < s.active) :
      ScanStep s ⟨s.pending + 1, s.active, s.wgCount + 1, s.jobQueueClosed, s.returned⟩
  /-- listFolder returns (all pages done, or an error); the worker loops
  back to the range over jobQueue.  No wg.Done happens here. -/
  | finishJob (s : ScanState) (h : 0 < s.active) :
      ScanStep s ⟨s.pending, s.active - 1, s.wgCount, s.jobQueueClosed, s.returned⟩
  /-- A worker's range loop ends - possible only once jobQueue is closed and
  drained - and its deferred w.wg.Done() runs. -/
  | workerExit (s : ScanState) (hclosed : s.jobQueueClosed = true)
      (hempty : s.pending = 0) (h : 0 < s.wgCount) :
      ScanStep s ⟨s.pending, s.active, s.wgCount - 1, s.jobQueueClosed, s.returned⟩
  /-- wg.Wait() returns - possible only when the WaitGroup counter is zero -
  after which ScanTeamDrive closes resultQueue, waits for the final flush
  and returns. -/
  | waitReturns (s : ScanState) (h : s.wgCount = 0) :
      ScanStep s ⟨s.pending, s.active, s.wgCount, s.jobQueueClosed, true⟩

/-- States reachable from the start of a crawl with totalWorkers workers. -/
inductive ScanReach (totalWorkers : Nat) : ScanState → Prop where
  | start : ScanReach totalWorkers (initScan totalWorkers)
  | next {s t : ScanState} :
      ScanReach totalWorkers s → ScanStep s t → ScanReach totalWorkers t

/-! ## Result sink: dbWriter -/

/-- One event the select loop of dbWriter can wake up on: a record received
from resultQueue, or a tick of the 2-second ticker. -/
inductive SinkEv where
  | recv (r : FileRecord)
  | tick

/-- One nonempty flush performed by dbWriter: at which time it ran, how many
records it wrote, and whether it was the final flush after resultQueue
closed.  flush() on an empty batch writes nothing and is not recorded. -/
structure FlushEv where
  time : Nat
  size : Nat
  isFinal : Bool
deriving Repr, DecidableEq

/-- The select loop of dbWriter over a time-stamped event trace: a received
record is appended to the batch, which is flushed as soon as its length
reaches batchSize; a ticker tick flushes the batch if it is nonempty; when
the channel closes (trace exhausted, at time closeTime) one final flush
runs.  Every write succeeds, as the claims stipulate, so each flush adds
its size to the DBInserts counter. -/
def sinkLoop (batchSize : Nat) :
    List (Nat × SinkEv) → List FileRecord → List FlushEv → Nat → List FlushEv
  | [], batch, acc, closeTime =>
    if batch.isEmpty then acc else acc ++ [⟨closeTime, batch.length, true⟩]
  | (t, SinkEv.recv r) :: evs, batch, acc, closeTime =>
    if batchSize ≤ (batch ++ [r]).length then
      sinkLoop batchSize evs [] (acc ++ [⟨t, (batch ++ [r]).length, false⟩]) closeTime
    else
      sinkLoop batchSize evs (batch ++ [r]) acc closeTime
  | (t, SinkEv.tick) :: evs, batch, acc, closeTime =>
    if batch.isEmpty then sinkLoop batchSize evs batch acc closeTime
    else sinkLoop batchSize evs [] (acc ++ [⟨t, batch.length, false⟩]) closeTime

/-- Times at which time.NewTicker(2 time units) fires before the channel
closes: every positive multiple of 2, independent of any flushes. -/
def tickTimes (closeTime : Nat) : List Nat :=
  (List.range closeTime).filter (fun t => t % 2 == 0 && t != 0)

/-- Interleaving of the time-sorted record arrivals with the ticker events:
ticks strictly earlier than the next record fire first; a record arriving
at the same instant as a tick is taken first. -/
def mergeTrace : List (Nat × FileRecord) → List Nat → List (Nat × SinkEv)
  | [], ticks => ticks.map (fun t => (t, SinkEv.tick))
  | (t, r) :: arrs, ticks =>
    ((ticks.takeWhile (fun tk => decide (tk < t))).map (fun tk => (tk, SinkEv.tick))) ++
      (t, SinkEv.recv r) :: mergeTrace arrs (ticks.dropWhile (fun tk => decide (tk < t)))

/-- A dbWriter run on a schedule of record arrivals, with the channel
closing at closeTime (after all arrivals). -/
def dbWriterRun (batchSize : Nat) (arrivals : List (Nat × FileRecord)) (closeTime : Nat) :
    List FlushEv :=
  sinkLoop batchSize (mergeTrace arrivals (tickTimes closeTime)) [] [] closeTime

/-- Final value of the DBInserts counter: every flush succeeded and added
its batch length. -/
def flushSizesTotal (fl : List FlushEv) : Nat := (fl.map FlushEv.size).sum

/-- Number of record events in a trace. -/
def recCountEvents : List (Nat × SinkEv) → Nat
  | [] => 0
  | (_, SinkEv.recv _) :: evs => recCountEvents evs + 1
  | (_, SinkEv.tick) :: evs => recCountEvents evs

/-- Modelled from the spec wording of the flush policy, for comparison with
the code: every flush is the final one, or was triggered by the batch
reaching the threshold, or happened at least 2 time units after the
previous flush (measured from time 0 for the first flush). -/
def flushIntervalClaim (batchSize : Nat) : Nat → List FlushEv → Bool
  | _, [] => true
  | lastFlushTime, f :: rest =>
    (f.isFinal || decide (batchSize ≤ f.size) || decide (lastFlushTime + 2 ≤ f.time)) &&
      flushIntervalClaim batchSize f.time rest

/-- A record as the crawler emits it, used to feed sink runs. -/
def sampleRecord : FileRecord := mkFileRecord "td" "drive" "A" (fileItem "f" "name")

/-- Counterexample schedule: three records arrive at time 1 (with threshold
2, the second triggers a size flush at time 1) and the ticker fires at time
2, only one time unit after that flush. -/
def c7CexArrivals : List (Nat × FileRecord) :=
  [(1, sampleRecord), (1, sampleRecord), (1, sampleRecord)]

/-- Scenario schedule: 250 records, all arriving before the first tick. -/
def c7ScenarioArrivals : List (Nat × FileRecord) :=
  List.replicate 250 ((0 : Nat), sampleRecord)

/-! ## Storage collaborator: Database.BatchInsert -/

/-- Which transaction-level operation of BatchInsert failed. -/
inductive TxFailure where
  | beginTx
  | prepareTx
  | commitTx
deriving Repr, DecidableEq

/-- Row replacement keyed by the id primary key: the effect the INSERT OR
REPLACE statement of BatchInsert requests on the files table - the row with
the same id, if any, is removed and the new row inserted once.  This is the
success branch of the batchInsert contract below; in this program that
branch is unreachable, because preparing the statement always fails (see
prepareFilesInsertOk).  The ten modelled columns are the ones the statement
writes; the schema-defaulted created_at column is outside the model. -/
def upsert (store : List FileRecord) (r : FileRecord) : List FileRecord :=
  store.filter (fun row => row.id != r.id) ++ [r]

/-- The statement-execution loop of BatchInsert: a record whose insert
fails (execOk r = false) is logged and skipped; all others are applied. -/
def execBatch (execOk : FileRecord → Bool) (store : List FileRecord)
    (records : List FileRecord) : List FileRecord :=
  records.foldl (fun st r => if execOk r then upsert st r else st) store

/-- Database.BatchInsert: returns an error exactly when Begin, Prepare or
Commit fails (a commit failure rolls the transaction back, so the store is
unchanged); an individual record's insert failure is logged and skipped and
the rest of the batch is still committed, with BatchInsert returning nil. -/
def batchInsert (beginOk prepareOk commitOk : Bool) (execOk : FileRecord → Bool)
    (store records : List FileRecord) : Except TxFailure (List FileRecord) :=
  if beginOk = false then Except.error TxFailure.beginTx
  else if prepareOk = false then Except.error TxFailure.prepareTx
  else if commitOk = false then Except.error TxFailure.commitTx
  else Except.ok (execBatch execOk store records)

/-- Whether BatchInsert returned nil. -/
def exceptOk : Except TxFailure (List FileRecord) → Bool
  | Except.ok _ => true
  | Except.error _ => false

/-- The DBInserts update the flush closure of dbWriter performs for a batch
of batchLen records: the whole batch length on a nil return, nothing on an
error. -/
def flushDelta (res : Except TxFailure (List FileRecord)) (batchLen : Nat) : Nat :=
  match res with
  | Except.ok _ => batchLen
  | Except.error _ => 0

/-- Inserts of the C10 witness fail exactly for the record with id bad. -/
def wExecOk : FileRecord → Bool := fun r => r.id != "bad"

/-- Two-record batch for the C10 witness; the second record's insert fails. -/
def wRecords : List FileRecord :=
  [mkFileRecord "td" "drive" "A" (fileItem "good" "g"),
   mkFileRecord "td" "drive" "A" (fileItem "bad" "b")]

/-- Schema fact: InitDatabase declares the files table WITHOUT ROWID
(part_001 line 79), so the table has no rowid column. -/
def filesTableWithoutRowid : Bool := true

/-- Schema fact: the files_ai AFTER INSERT trigger installed by the same
InitDatabase (part_001 lines 104 to 107) inserts new.rowid into
files_fts. -/
def filesAiTriggerReferencesRowid : Bool := true

/-- Whether SQLite can prepare the INSERT OR REPLACE statement of
BatchInsert: an AFTER INSERT trigger on the target table that references
new.rowid cannot be resolved when the table is WITHOUT ROWID, so
sqlite3_prepare_v2 fails with the error no such column: new.rowid.  In
this program both schema facts hold, so preparation always fails. -/
def prepareFilesInsertOk : Bool :=
  !(filesTableWithoutRowid && filesAiTriggerReferencesRowid)

/-- The table state the caller observes after a BatchInsert call: the new
state on a nil return, the unchanged previous state when the call returns
an error (the transaction was rolled back or never started). -/
def storeAfter (res : Except TxFailure (List FileRecord)) (old : List FileRecord) :
    List FileRecord :=
  match res with
  | Except.ok s => s
  | Except.error _ => old

/-! ## Credential pool: ServiceAccountPool.getNext -/

/-- Wrap-around of Go's int32 arithmetic: the representative of x in the
interval from -2147483648 (that is -2^31) to 2147483647 (that is
2^31 - 1). -/
def int32Wrap (x : Int) : Int := (x + 2147483648) % 4294967296 - 2147483648

/-- Go's % operator on int: remainder truncated toward zero, so its sign
follows the dividend. -/
def goIntRem (a b : Int) : Int := Int.tmod a b

/-- The index computed by getNext, idx := int(p.current.Add(1)) %
len(p.services), given the cursor value before the call and the pool
size. -/
def getNextIdx (current : Int) (numServices : Nat) : Int :=
  goIntRem (int32Wrap (current + 1)) numServices

/-- Cursor value after m getNext calls: p.current starts at zero and each
call performs a wrapping int32 increment. -/
def cursorAfterCalls : Nat → Int
  | 0 => 0
  | m + 1 => int32Wrap (cursorAfterCalls m + 1)

/-! ## Helper lemmas -/

/-- Evaluation shortcut: a fileItem is not a folder. -/
lemma isFolder_fileItem (i n : String) : (fileItem i n).isFolder = false := rfl

/-- Evaluation shortcut: a folderItem is a folder. -/
lemma isFolder_folderItem (i n : String) : (folderItem i n).isFolder = true := rfl

/-- A wrapping increment of an already wrapped value wraps the plain
increment. -/
lemma int32Wrap_wrap_add_one (x : Int) : int32Wrap (int32Wrap x + 1) = int32Wrap (x + 1) := by
  unfold int32Wrap
  omega

/-- Closed form of the cursor: after m calls the cursor holds m wrapped to
int32 range. -/
lemma cursorAfterCalls_eq (m : Nat) : cursorAfterCalls m = int32Wrap m := by
  induction m with
  | zero => decide
  | succ m ih =>
    rw [cursorAfterCalls, ih, int32Wrap_wrap_add_one]
    norm_num

mutual
/-- Folder ids below a node form a sublist of all ids below it. -/
theorem nodeFolderIds_sublist : ∀ n : FsNode, (nodeFolderIds n).Sublist (nodeIds n)
  | FsNode.node it cs => by
    simp only [nodeFolderIds, nodeIds]
    cases hf : it.isFolder
    · simpa using List.Sublist.cons it.id (forestFolderIds_sublist cs)
    · simpa using List.Sublist.cons₂ it.id (forestFolderIds_sublist cs)
/-- Folder ids of a forest form a sublist of all its ids. -/
theorem forestFolderIds_sublist : ∀ f : FsForest, (forestFolderIds f).Sublist (forestIds f)
  | FsForest.nil => by simp [forestFolderIds, forestIds]
  | FsForest.cons n rest => by
    simp only [forestFolderIds, forestIds]
    exact List.Sublist.append (nodeFolderIds_sublist n) (forestFolderIds_sublist rest)
end

mutual
/-- The FilesProcessed counter counts exactly the emitted records, node
version: the counter is incremented once per listed item, folders
included. -/
theorem crawlNode_fp (tdID tdName : String) : ∀ (pid : String) (n : FsNode),
    (crawlNode tdID tdName pid n).filesProcessed =
      (crawlNode tdID tdName pid n).records.length
  | pid, FsNode.node it cs => by
    simp only [crawlNode, CrawlOut.append, CrawlOut.empty]
    cases hf : it.isFolder
    · simp
    · simp [crawlForest_fp tdID tdName it.id cs]
      omega
/-- The FilesProcessed counter counts exactly the emitted records, forest
version. -/
theorem crawlForest_fp (tdID tdName : String) : ∀ (pid : String) (f : FsForest),
    (crawlForest tdID tdName pid f).filesProcessed =
      (crawlForest tdID tdName pid f).records.length
  | _, FsForest.nil => by simp [crawlForest, CrawlOut.empty]
  | pid, FsForest.cons n rest => by
    simp only [crawlForest, CrawlOut.append]
    simp [crawlNode_fp tdID tdName pid n, crawlForest_fp tdID tdName pid rest]
end

mutual
/-- For a well-formed node, the emitted record ids are exactly the ids of
the subtree and the enqueued ids are exactly its folder ids. -/
theorem crawlNode_ids (tdID tdName : String) : ∀ (pid : String) (n : FsNode),
    wfNode n = true →
    (crawlNode tdID tdName pid n).records.map FileRecord.id = nodeIds n ∧
    (crawlNode tdID tdName pid n).enqueued = nodeFolderIds n
  | pid, FsNode.node it cs, hwf => by
    have hparts : (it.isFolder || cs.isNil) = true ∧ wfForest cs = true := by
      simpa [wfNode, Bool.and_eq_true] using hwf
    simp only [crawlNode, nodeIds, nodeFolderIds, CrawlOut.append, CrawlOut.empty]
    cases hf : it.isFolder
    · have hnil : cs = FsForest.nil := by
        cases cs
        · rfl
        · rw [hf] at hparts; simp [FsForest.isNil] at hparts
      subst hnil
      simp [forestIds, forestFolderIds, mkFileRecord]
    · have ih := crawlForest_ids tdID tdName it.id cs hparts.2
      simp [ih.1, ih.2, mkFileRecord]
/-- For a well-formed forest, the emitted record ids are exactly the forest
ids and the enqueued ids are exactly its folder ids. -/
theorem crawlForest_ids (tdID tdName : String) : ∀ (pid : String) (f : FsForest),
    wfForest f = true →
    (crawlForest tdID tdName pid f).records.map FileRecord.id = forestIds f ∧
    (crawlForest tdID tdName pid f).enqueued = forestFolderIds f
  | _, FsForest.nil, _ => by simp [crawlForest, forestIds, forestFolderIds, CrawlOut.empty]
  | pid, FsForest.cons n rest, hwf => by
    have hparts : wfNode n = true ∧ wfForest rest = true := by
      simpa [wfForest, Bool.and_eq_true] using hwf
    have ih1 := crawlNode_ids tdID tdName pid n hparts.1
    have ih2 := crawlForest_ids tdID tdName pid rest hparts.2
    simp only [crawlForest, forestIds, forestFolderIds, CrawlOut.append]
    simp [ih1.1, ih1.2, ih2.1, ih2.2]
end

/-- The retry loop performs at most one underlying call per remaining
attempt. -/
lemma retryLoop_calls_le {α : Type} (doCall : Nat → Outcome α) :
    ∀ (lst : List Nat) (calls : Nat) (sleeps : List Nat),
      (retryLoop doCall lst calls sleeps).calls ≤ calls + lst.length := by
  intro lst
  induction lst with
  | nil => intro c s; simp [retryLoop]
  | cons a rest ih =>
    intro c s
    simp only [retryLoop]
    rcases doCall a with v | e
    · simp
    · simp only []
      split
      · exact le_trans (ih (c + 1) _) (by simp; omega)
      · split
        · simp
        · exact le_trans (ih (c + 1) _) (by simp; omega)

/-- A failed attempt that is not the last one always continues to the next
attempt after sleeping its backoff delay, whatever the classification. -/
lemma retryLoop_err_cons {α : Type} (doCall : Nat → Outcome α) (e : ApiError) (a x : Nat)
    (rest : List Nat) (calls : Nat) (sleeps : List Nat) (ha : doCall a = Outcome.err e) :
    retryLoop doCall (a :: x :: rest) calls sleeps =
      retryLoop doCall (x :: rest) (calls + 1) (sleeps ++ [backoffDelay a]) := by
  simp only [retryLoop, ha]
  cases hr : e.isRateLimit <;> simp

/-- Whatever the environment does, the sleeps of the retry loop are always a
prefix of the full backoff schedule: starting from the sleeps of attempts
0 to k-1, it ends with the sleeps of attempts 0 to j-1 for some j between k
and k plus the remaining attempt count. -/
lemma retryLoop_sleeps {α : Type} (doCall : Nat → Outcome α) :
    ∀ (m k calls : Nat), ∃ j, k ≤ j ∧ j ≤ k + m ∧
      (retryLoop doCall (List.range' k m) calls ((List.range k).map backoffDelay)).sleeps =
        (List.range j).map backoffDelay := by
  intro m
  induction m with
  | zero =>
    intro k c
    exact ⟨k, le_refl _, by omega, by simp [List.range', retryLoop]⟩
  | succ m ih =>
    intro k c
    have hr : List.range' k (m + 1) = k :: List.range' (k + 1) m := rfl
    rw [hr]
    have happ : (List.range k).map backoffDelay ++ [backoffDelay k] =
        (List.range (k + 1)).map backoffDelay := by
      rw [List.range_succ]
      simp
    rcases hc : doCall k with v | e
    · exact ⟨k, le_refl _, by omega, by simp only [retryLoop, hc]⟩
    · cases hrl : e.isRateLimit
      · cases m with
        | zero =>
          refine ⟨k, le_refl _, by omega, ?_⟩
          simp [retryLoop, hc, hrl, List.range']
        | succ m2 =>
          have hcons : List.range' (k + 1) (m2 + 1) = (k + 1) :: List.range' (k + 2) m2 := rfl
          obtain ⟨j, hj1, hj2, hj3⟩ := ih (k + 1) (c + 1)
          refine ⟨j, by omega, by omega, ?_⟩
          rw [← hj3]
          simp only [retryLoop, hc, hrl, happ, hcons]
          simp
      · obtain ⟨j, hj1, hj2, hj3⟩ := ih (k + 1) (c + 1)
        refine ⟨j, by omega, by omega, ?_⟩
        rw [← hj3]
        simp only [retryLoop, hc, hrl, happ]
        simp

/-- Record events counted across concatenated traces. -/
lemma recCountEvents_append (a b : List (Nat × SinkEv)) :
    recCountEvents (a ++ b) = recCountEvents a + recCountEvents b := by
  induction a with
  | nil => simp [recCountEvents]
  | cons e rest ih =>
    rcases e with ⟨t, ev⟩
    cases ev with
    | recv r => simp [recCountEvents, ih]; omega
    | tick => simp [recCountEvents, ih]

/-- A pure tick trace holds no record events. -/
lemma recCountEvents_ticks (ts : List Nat) :
    recCountEvents (ts.map (fun t => (t, SinkEv.tick))) = 0 := by
  induction ts with
  | nil => simp [recCountEvents]
  | cons t rest ih => simp [recCountEvents, ih]

/-- The merge of arrivals and ticks holds exactly one record event per
arrival. -/
lemma recCount_mergeTrace :
    ∀ (arrs : List (Nat × FileRecord)) (ticks : List Nat),
      recCountEvents (mergeTrace arrs ticks) = arrs.length := by
  intro arrs
  induction arrs with
  | nil => intro ticks; simp [mergeTrace, recCountEvents_ticks]
  | cons a rest ih =>
    intro ticks
    rcases a with ⟨t, r⟩
    simp [mergeTrace, recCountEvents_append, recCountEvents_ticks, recCountEvents, ih]

/-- Total of flush sizes over an extended log. -/
lemma flushSizesTotal_append (a b : List FlushEv) :
    flushSizesTotal (a ++ b) = flushSizesTotal a + flushSizesTotal b := by
  simp [flushSizesTotal]

/-- Conservation through the sink loop: every record that enters the batch
is eventually written by exactly one flush, so the flush sizes total the
pending batch plus all record events of the remaining trace. -/
lemma sinkLoop_total (batchSize : Nat) :
    ∀ (evs : List (Nat × SinkEv)) (batch : List FileRecord) (acc : List FlushEv)
      (closeTime : Nat),
      flushSizesTotal (sinkLoop batchSize evs batch acc closeTime) =
        flushSizesTotal acc + batch.length + recCountEvents evs := by
  intro evs
  induction evs with
  | nil =>
    intro batch acc ct
    by_cases hb : batch.isEmpty
    · have : batch = [] := by simpa [List.isEmpty_iff] using hb
      subst this
      simp [sinkLoop, recCountEvents]
    · simp [sinkLoop, hb, recCountEvents, flushSizesTotal_append, flushSizesTotal]
  | cons e rest ih =>
    intro batch acc ct
    rcases e with ⟨t, ev⟩
    cases ev with
    | recv r =>
      simp only [sinkLoop]
      by_cases hfull : batchSize ≤ (batch ++ [r]).length
      · rw [if_pos hfull, ih]
        simp [flushSizesTotal_append, flushSizesTotal, recCountEvents]
        omega
      · rw [if_neg hfull, ih]
        simp [recCountEvents]
        omega
    | tick =>
      simp only [sinkLoop]
      by_cases hb : batch.isEmpty
      · rw [if_pos hb, ih]
        have : batch = [] := by simpa [List.isEmpty_iff] using hb
        subst this
        simp [recCountEvents]
      · rw [if_neg hb, ih]
        simp [flushSizesTotal_append, flushSizesTotal, recCountEvents]

/-- Skipped inserts: the statement loop applies exactly the records whose
individual insert succeeds, in order. -/
lemma execBatch_filter (execOk : FileRecord → Bool) :
    ∀ (records : List FileRecord) (store : List FileRecord),
      execBatch execOk store records = (records.filter execOk).foldl upsert store := by
  intro records
  induction records with
  | nil => intro store; simp [execBatch]
  | cons r rest ih =>
    intro store
    by_cases hr : execOk r
    · simp [execBatch, hr, List.filter_cons_of_pos, ih]
      rw [← ih]
      simp [execBatch]
    · simp [execBatch, hr, List.filter_cons_of_neg, ih]
      rw [← ih]
      simp [execBatch]

/-! ## Claim theorems -/

/-- C1: the claim says the crawl terminates, with the job queue closed once
outstanding work reaches zero, the workers exiting, the result channel
closing and ScanTeamDrive returning.  The code cannot do this: nothing ever
closes jobQueue, and every discovered folder performs wg.Add(1) with no
matching wg.Done (Done only runs when a worker exits its range loop, which
requires the closed queue).  This theorem proves that in every reachable
state of the synchronisation skeleton the job queue is still open and
ScanTeamDrive has not returned - for any crawl with at least one worker,
over any folder tree, however small. -/
theorem scanTeamDrive_never_returns (totalWorkers : Nat) (hW : 1 ≤ totalWorkers)
    (s : ScanState) (h : ScanReach totalWorkers s) :
    s.returned = false ∧ s.jobQueueClosed = false := by
  have key : s.returned = false ∧ s.jobQueueClosed = false ∧ totalWorkers ≤ s.wgCount := by
    induction h with
    | start => exact ⟨rfl, rfl, Nat.le_refl _⟩
    | next hr hstep ih =>
      cases hstep with
      | takeJob hu => exact ⟨ih.1, ih.2.1, ih.2.2⟩
      | discoverFolder hu => exact ⟨ih.1, ih.2.1, le_trans ih.2.2 (Nat.le_succ _)⟩
      | finishJob hu => exact ⟨ih.1, ih.2.1, ih.2.2⟩
      | workerExit hclosed hempty hu =>
        rw [ih.2.1] at hclosed
        exact absurd hclosed (by simp)
      | waitReturns hu =>
        have := ih.2.2
        omega
  exact ⟨key.1, key.2.1⟩

/-- C1 witness: the theorem applied to the smallest crawl, one worker at the
initial state. -/
theorem scanTeamDrive_never_returns_witness :
    1 ≤ 1 ∧ ((initScan 1).returned = false ∧ (initScan 1).jobQueueClosed = false) :=
  ⟨Nat.le_refl 1,
   scanTeamDrive_never_returns 1 (Nat.le_refl 1) (initScan 1) ScanReach.start⟩

/-- C9: the claim says the index computed by getNext is always within the
bounds of the services slice, including after the 32-bit cursor wraps.  It
is not: after 2^31 - 1 calls the cursor holds 2147483647, the next
current.Add(1) wraps to -2147483648, and Go's % keeps the sign of the
dividend, so with a pool of 3 credentials the computed index is -2 and
indexing the services slice panics. -/
theorem getNext_wrap_out_of_bounds :
    cursorAfterCalls (2 ^ 31 - 1) = 2147483647 ∧
    getNextIdx (cursorAfterCalls (2 ^ 31 - 1)) 3 = -2 ∧
    ¬(0 ≤ getNextIdx (cursorAfterCalls (2 ^ 31 - 1)) 3) := by
  rw [cursorAfterCalls_eq]
  refine ⟨by decide, by decide, by decide⟩

/-- C3 counterexample: when all 5 attempts fail with the same non-rate-limit
error, executeWithRetry performs 5 attempts but returns the underlying
error, not the max-retries-exceeded error the claim requires for every kind
of non-fatal failure. -/
theorem retry_returns_underlying_error_cex :
    (executeWithRetry allGenericCalls).calls = 5 ∧
    (executeWithRetry allGenericCalls).result = RetryResult.err (ApiError.generic "network") ∧
    ¬((executeWithRetry allGenericCalls).result = RetryResult.maxRetriesExceeded) := by
  decide

/-- C3 as amended: executeWithRetry performs at most 5 attempts; whenever
the first successful attempt is attempt k (all earlier attempts failed,
with any classification), it returns that result immediately - exactly
k + 1 underlying calls, no attempt after the success; and when every
attempt fails, the error surfaced after the 5th attempt is the
max-retries-exceeded error when that final failure is rate-limit-class,
and the underlying error itself otherwise. -/
theorem executeWithRetry_contract {α : Type} (doCall : Nat → Outcome α) :
    (executeWithRetry doCall).calls ≤ 5 ∧
    (∀ k a, k < 5 → (∀ j, j < k → (doCall j).isErr = true) → doCall k = Outcome.ok a →
      executeWithRetry doCall =
        ⟨RetryResult.ok a, k + 1, (List.range k).map backoffDelay⟩) ∧
    (∀ e4, (∀ k, k < 5 → (doCall k).isErr = true) → doCall 4 = Outcome.err e4 →
      (executeWithRetry doCall).calls = 5 ∧
      (executeWithRetry doCall).result =
        (if e4.isRateLimit then RetryResult.maxRetriesExceeded else RetryResult.err e4)) := by
  have herr : ∀ k, (doCall k).isErr = true → ∃ e, doCall k = Outcome.err e := by
    intro k hk
    rcases hx : doCall k with v | e
    · rw [hx] at hk
      simp [Outcome.isErr] at hk
    · exact ⟨e, rfl⟩
  have hr : List.range 5 = 0 :: 1 :: 2 :: 3 :: 4 :: [] := rfl
  refine ⟨?_, ?_, ?_⟩
  · have h := retryLoop_calls_le doCall (List.range 5) 0 []
    simpa [executeWithRetry] using h
  · intro k a hk hprev hka
    unfold executeWithRetry
    rw [hr]
    interval_cases k
    · simp [retryLoop, hka]
    · obtain ⟨e0, h0⟩ := herr 0 (hprev 0 (by omega))
      rw [retryLoop_err_cons doCall e0 0 1 (2 :: 3 :: 4 :: []) 0 [] h0]
      simp only [retryLoop, hka]
      rfl
    · obtain ⟨e0, h0⟩ := herr 0 (hprev 0 (by omega))
      obtain ⟨e1, h1⟩ := herr 1 (hprev 1 (by omega))
      rw [retryLoop_err_cons doCall e0 0 1 (2 :: 3 :: 4 :: []) 0 [] h0]
      rw [retryLoop_err_cons doCall e1 1 2 (3 :: 4 :: []) 1 _ h1]
      simp only [retryLoop, hka]
      rfl
    · obtain ⟨e0, h0⟩ := herr 0 (hprev 0 (by omega))
      obtain ⟨e1, h1⟩ := herr 1 (hprev 1 (by omega))
      obtain ⟨e2, h2⟩ := herr 2 (hprev 2 (by omega))
      rw [retryLoop_err_cons doCall e0 0 1 (2 :: 3 :: 4 :: []) 0 [] h0]
      rw [retryLoop_err_cons doCall e1 1 2 (3 :: 4 :: []) 1 _ h1]
      rw [retryLoop_err_cons doCall e2 2 3 (4 :: []) 2 _ h2]
      simp only [retryLoop, hka]
      rfl
    · obtain ⟨e0, h0⟩ := herr 0 (hprev 0 (by omega))
      obtain ⟨e1, h1⟩ := herr 1 (hprev 1 (by omega))
      obtain ⟨e2, h2⟩ := herr 2 (hprev 2 (by omega))
      obtain ⟨e3, h3⟩ := herr 3 (hprev 3 (by omega))
      rw [retryLoop_err_cons doCall e0 0 1 (2 :: 3 :: 4 :: []) 0 [] h0]
      rw [retryLoop_err_cons doCall e1 1 2 (3 :: 4 :: []) 1 _ h1]
      rw [retryLoop_err_cons doCall e2 2 3 (4 :: []) 2 _ h2]
      rw [retryLoop_err_cons doCall e3 3 4 [] 3 _ h3]
      simp only [retryLoop, hka]
      rfl
  · intro e4 hall h4
    obtain ⟨e0, h0⟩ := herr 0 (hall 0 (by omega))
    obtain ⟨e1, h1⟩ := herr 1 (hall 1 (by omega))
    obtain ⟨e2, h2⟩ := herr 2 (hall 2 (by omega))
    obtain ⟨e3, h3⟩ := herr 3 (hall 3 (by omega))
    unfold executeWithRetry
    rw [hr]
    rw [retryLoop_err_cons doCall e0 0 1 (2 :: 3 :: 4 :: []) 0 [] h0]
    rw [retryLoop_err_cons doCall e1 1 2 (3 :: 4 :: []) 1 _ h1]
    rw [retryLoop_err_cons doCall e2 2 3 (4 :: []) 2 _ h2]
    rw [retryLoop_err_cons doCall e3 3 4 [] 3 _ h3]
    simp only [retryLoop, h4]
    cases hrl : e4.isRateLimit <;> simp [retryLoop]

/-- C3 witness: the contract applied twice - to the two-rate-limit-errors-
then-success environment, whose first success at attempt 2 returns
immediately after 3 calls and 2 sleeps, and to the all-429 environment,
where the 5 attempts exhaust and the rate-limit-class classification of the
final failure yields the max-retries-exceeded error. -/
theorem executeWithRetry_contract_witness :
    executeWithRetry rateLimitTwiceCalls =
      ⟨RetryResult.ok (), 3, [backoffDelay 0, backoffDelay 1]⟩ ∧
    (executeWithRetry allRateCalls).calls = 5 ∧
    (executeWithRetry allRateCalls).result = RetryResult.maxRetriesExceeded := by
  refine ⟨?_, ?_⟩
  · have h := (executeWithRetry_contract rateLimitTwiceCalls).2.1 2 () (by omega)
      (fun j hj => by interval_cases j <;> rfl) rfl
    rw [h]
    rfl
  · have h := (executeWithRetry_contract allRateCalls).2.2 (ApiError.gapi 429)
      (fun k hk => rfl) rfl
    simpa [ApiError.isRateLimit] using h

/-- C4 counterexample: two environments that fail on every attempt and
differ only in the rate-limit classification of their errors produce
different retry-loop behaviour beyond logging: the rate-limit-class run
sleeps 5 times and surfaces the max-retries-exceeded error, the generic run
sleeps only 4 times and surfaces the underlying error. -/
theorem retry_classification_changes_behavior_cex :
    (executeWithRetry allRateCalls).sleeps =
      [backoffDelay 0, backoffDelay 1, backoffDelay 2, backoffDelay 3, backoffDelay 4] ∧
    (executeWithRetry allGenericCalls).sleeps =
      [backoffDelay 0, backoffDelay 1, backoffDelay 2, backoffDelay 3] ∧
    (executeWithRetry allRateCalls).result = RetryResult.maxRetriesExceeded ∧
    (executeWithRetry allGenericCalls).result =
      RetryResult.err (ApiError.generic "network") := by
  decide

/-- C4 as amended: whatever the classification of each failure, the backoff
schedule is the same: the sleeps of any executeWithRetry run are exactly
base times 2 to the k for consecutive attempt indices k from 0, at most 5
of them; classification only decides whether one more sleep follows the
final failed attempt and which error is surfaced, never the delay values
between attempts. -/
theorem backoff_schedule_uniform {α : Type} (doCall : Nat → Outcome α) :
    ∃ m, m ≤ 5 ∧ (executeWithRetry doCall).sleeps = (List.range m).map backoffDelay := by
  have hnil : ((List.range 0).map backoffDelay) = ([] : List Nat) := by simp
  have h0 : List.range 5 = List.range' 0 5 := List.range_eq_range' 5
  unfold executeWithRetry
  rw [h0, ← hnil]
  obtain ⟨j, hj1, hj2, hj3⟩ := retryLoop_sleeps doCall 5 0 0
  exact ⟨j, by omega, hj3⟩

/-- C5 counterexample: in the two-rate-limit-errors-then-success scenario
the APICallsTotal counter increases by 1, not by 3: Worker.listFolder
increments it once per page request, before executeWithRetry, so retry
attempts inside the executor are not counted. -/
theorem api_total_per_page_cex :
    (listPageOnce rateLimitTwiceCalls).apiCallsTotal = 1 ∧
    ¬((listPageOnce rateLimitTwiceCalls).apiCallsTotal = 3) := by
  decide

/-- C5 as amended: a page listing whose upstream call returns a
rate-limit-class error exactly twice and then succeeds performs exactly 2
backoff sleeps (of 1 and 2 base delays), increases APICallsTotal by 1 (one
per page request, not per attempt), increases APICallsSuccess by 1, and
leaves APICallsFailed unchanged. -/
theorem rate_limit_scenario_counters :
    listPageOnce rateLimitTwiceCalls =
      ⟨1, 1, 0, [backoffDelay 0, backoffDelay 1]⟩ ∧
    (listPageOnce rateLimitTwiceCalls).sleeps.length = 2 := by
  decide

/-- C6 counterexample: in the spec scenario (root A with 2 files and
subfolder B holding 1 file) the FilesProcessed counter ends at 4, not 3,
and 4 records are emitted, not 3: Worker.listFolder increments the counter
and pushes a record for every listed item, the folder B included. -/
theorem files_processed_counts_folders_cex :
    (crawlForest "td" "drive" "A" scenarioForest).filesProcessed = 4 ∧
    ¬((crawlForest "td" "drive" "A" scenarioForest).filesProcessed = 3) ∧
    (crawlForest "td" "drive" "A" scenarioForest).records.length = 4 ∧
    ¬((crawlForest "td" "drive" "A" scenarioForest).records.length = 3) := by
  decide

/-- C6 as amended: the FilesProcessed counter is incremented once for every
listed item, folders included - it always equals the number of emitted
records - and the scenario crawl of root A (2 files plus subfolder B with 1
file) ends with FilesProcessed = 4, FoldersQueued = 1 and exactly these 4
records with the correct parent ids: the two files and the folder row of B
under parent A, and the file of B under parent B. -/
theorem files_processed_per_item :
    (∀ (tdID tdName pid : String) (f : FsForest),
      (crawlForest tdID tdName pid f).filesProcessed =
        (crawlForest tdID tdName pid f).records.length) ∧
    crawlForest "td" "drive" "A" scenarioForest =
      ⟨[mkFileRecord "td" "drive" "A" (fileItem "f1" "one"),
        mkFileRecord "td" "drive" "A" (fileItem "f2" "two"),
        mkFileRecord "td" "drive" "A" (folderItem "B" "bee"),
        mkFileRecord "td" "drive" "B" (fileItem "f3" "three")],
       ["B"], 4, 1⟩ := by
  exact ⟨fun tdID tdName pid f => crawlForest_fp tdID tdName pid f, by decide⟩

/-- C2: over any well-formed folder tree whose ids are distinct (the remote
store guarantees unique ids and a single parent per item), the sequence of
job-queue insertions is duplicate-free: the root enters once, explicitly,
and every other folder id enters exactly once, at the moment it is first
observed as a child in a listing (the enqueued list is exactly the list of
folder ids of the tree); moreover every child reported by the upstream API
is emitted as a record (the emitted ids are exactly the ids of the tree),
so no item is both unemitted and unenqueued. -/
theorem crawl_enqueues_each_folder_once (tdID tdName root : String) (f : FsForest)
    (hwf : wfForest f = true) (hnd : (root :: forestIds f).Nodup) :
    (root :: (crawlForest tdID tdName root f).enqueued).Nodup ∧
    (crawlForest tdID tdName root f).enqueued = forestFolderIds f ∧
    (crawlForest tdID tdName root f).records.map FileRecord.id = forestIds f := by
  have hids := crawlForest_ids tdID tdName root f hwf
  refine ⟨?_, hids.2, hids.1⟩
  rw [hids.2]
  exact ((forestFolderIds_sublist f).cons₂ root).nodup hnd

/-- C2 witness: the theorem applied to the scenario tree rooted at A. -/
theorem crawl_enqueues_each_folder_once_witness :
    ("A" :: (crawlForest "td" "drive" "A" scenarioForest).enqueued).Nodup ∧
    (crawlForest "td" "drive" "A" scenarioForest).enqueued = forestFolderIds scenarioForest ∧
    (crawlForest "td" "drive" "A" scenarioForest).records.map FileRecord.id =
      forestIds scenarioForest :=
  crawl_enqueues_each_folder_once "td" "drive" "A" scenarioForest (by decide) (by decide)

/-- C7 counterexample: the 2-time-unit ticker of dbWriter is not measured
from the last flush.  With threshold 2 and three records arriving at time
1, a size flush of 2 runs at time 1 and the ticker then flushes the
remaining single record at time 2 - a flush that is neither final, nor at
threshold, nor 2 time units after the previous flush, so the flush policy
the claim states rejects the log the code produces. -/
theorem sink_tick_not_since_last_flush_cex :
    dbWriterRun 2 c7CexArrivals 3 = [⟨1, 2, false⟩, ⟨2, 1, false⟩] ∧
    flushIntervalClaim 2 0 (dbWriterRun 2 c7CexArrivals 3) = false := by
  decide

set_option maxRecDepth 40000 in
/-- C7 as amended: the sink flushes when the batch reaches the threshold, on
every ticker fire with a nonempty batch (the ticker runs every 2 time units
from sink start and is not reset by size-triggered flushes), and once more
when the inbound channel closes; all flushes together write every received
record exactly once, so with all storage writes succeeding the DBInserts
counter ends at the number of records received - in the 250-record
threshold-100 scenario with all records arriving before the first tick:
two full flushes of 100, one final flush of 50, and DBInserts = 250. -/
theorem dbWriter_flush_totals :
    (∀ (batchSize : Nat) (arrivals : List (Nat × FileRecord)) (closeTime : Nat),
      flushSizesTotal (dbWriterRun batchSize arrivals closeTime) = arrivals.length) ∧
    dbWriterRun 100 c7ScenarioArrivals 1 =
      [⟨0, 100, false⟩, ⟨0, 100, false⟩, ⟨1, 50, true⟩] ∧
    flushSizesTotal (dbWriterRun 100 c7ScenarioArrivals 1) = 250 := by
  refine ⟨?_, by decide, by decide⟩
  intro bs arrs ct
  unfold dbWriterRun
  rw [sinkLoop_total, recCount_mergeTrace]
  simp [flushSizesTotal]

/-- C8: the claim says writing a FileRecord and writing it again with
identical fields yields the same stored state, an idempotent upsert keyed
by id with a second write overwriting the row.  In this program no insert
ever succeeds: InitDatabase declares the files table WITHOUT ROWID yet
installs the files_ai trigger that references new.rowid, so preparing the
INSERT OR REPLACE statement fails (no such column: new.rowid) and
BatchInsert always returns the prepare error - for every batch, over every
store: writing a record once, then again, stores and overwrites nothing,
and the intended overwrite-the-same-id behaviour never happens. -/
theorem batchInsert_prepare_always_fails (commitOk : Bool)
    (execOk : FileRecord → Bool) (store records : List FileRecord) :
    prepareFilesInsertOk = false ∧
    batchInsert true prepareFilesInsertOk commitOk execOk store records =
      Except.error TxFailure.prepareTx ∧
    storeAfter (batchInsert true prepareFilesInsertOk commitOk execOk store records)
      store = store ∧
    storeAfter (batchInsert true prepareFilesInsertOk commitOk execOk
        (storeAfter (batchInsert true prepareFilesInsertOk commitOk execOk store records)
          store)
        records) store = store := by
  refine ⟨rfl, ?_, ?_, ?_⟩ <;>
    simp [batchInsert, prepareFilesInsertOk, filesTableWithoutRowid,
      filesAiTriggerReferencesRowid, storeAfter]

/-- C10: BatchInsert returns an error exactly when beginning, preparing or
committing the transaction fails; when those succeed it returns nil and
commits precisely the records whose individual insert succeeded, skipping
the failed ones, so the flush closure of dbWriter adds the entire batch
length to the DBInserts counter even when some records in the batch failed
to insert. -/
theorem batchInsert_error_only_on_tx_failure (b p c : Bool) (execOk : FileRecord → Bool)
    (store records : List FileRecord) :
    exceptOk (batchInsert b p c execOk store records) = (b && p && c) ∧
    (b = true → p = true → c = true →
      batchInsert b p c execOk store records =
        Except.ok ((records.filter execOk).foldl upsert store) ∧
      flushDelta (batchInsert b p c execOk store records) records.length =
        records.length) := by
  constructor
  · cases b <;> cases p <;> cases c <;> simp [batchInsert, exceptOk]
  · intro hb hp hc
    subst hb; subst hp; subst hc
    have hfilter := execBatch_filter execOk records store
    constructor
    · simp [batchInsert, hfilter]
    · simp [batchInsert, flushDelta]

/-- C10 witness: a two-record batch whose second record fails to insert
still commits, returns nil, stores only the good record, and the caller
counts the whole batch of 2. -/
theorem batchInsert_error_only_on_tx_failure_witness :
    exceptOk (batchInsert true true true wExecOk [] wRecords) = (true && true && true) ∧
    batchInsert true true true wExecOk [] wRecords =
      Except.ok ((wRecords.filter wExecOk).foldl upsert []) ∧
    flushDelta (batchInsert true true true wExecOk [] wRecords) wRecords.length =
      wRecords.length :=
  ⟨(batchInsert_error_only_on_tx_failure true true true wExecOk [] wRecords).1,
   ((batchInsert_error_only_on_tx_failure true true true wExecOk [] wRecords).2
      rfl rfl rfl).1,
   ((batchInsert_error_only_on_tx_failure true true true wExecOk [] wRecords).2
      rfl rfl rfl).2⟩
